import Mathlib

/-!
Verification development for the ICBC bank-statement analysis scripts
(`bank_analysis_phase2.py`, `bank_analysis_improved.py`,
`bank_analysis_extended.py`).

The Lean definitions below are a shallow embedding of the engine code:
row filtering, field normalization (amount / balance / date), direction
classification, keyword auto-categorization, and the grouped aggregates
(monthly / yearly summaries with savings and growth rates, category
summaries).  Machine floats are modelled as exact rationals together with
an explicit `PFloat` tag type (`num q`, `pinf`, `ninf`, `nan`) that
reproduces IEEE behaviour of the zero-denominator divisions that the
pandas code performs; all values occurring here are statement-scale, so
finite-rational arithmetic is a faithful model of the float arithmetic
away from the division-by-zero cases that the tags capture.
-/

/-! ## Characters and strings

Python string helpers (`str.strip`, `str.replace(',', '')`, substring
containment as used by `str.contains`) are modelled on `List Char` so that
everything reduces in the kernel. -/

/-- Does `hay` start with `needle`? (helper for substring containment). -/
def chStarts : List Char → List Char → Bool
  | [], _ => true
  | _ :: _, [] => false
  | a :: ns, b :: hs => a == b && chStarts ns hs

/-- Does the second list contain the first as a contiguous sublist?
Models Python `needle in hay` / `Series.str.contains` (the keyword
patterns used by the scripts contain no regex metacharacters). -/
def chContains (needle : List Char) : List Char → Bool
  | [] => chStarts needle []
  | c :: rest => chStarts needle (c :: rest) || chContains needle rest

/-- `strContains hay needle`: substring containment on strings. -/
def strContains (hay needle : String) : Bool :=
  chContains needle.toList hay.toList

/-- Case-insensitive substring containment: models
`Series.str.contains(keyword, case=False)`.  `Char.toLower` lower-cases
ASCII letters, which covers every cased character appearing in the
configured keywords (`KTV`); the Chinese keywords are case-less. -/
def strContainsCI (hay needle : String) : Bool :=
  chContains (needle.toList.map Char.toLower) (hay.toList.map Char.toLower)

/-- Python `str.strip()`: drop leading and trailing whitespace.
(Defined on char lists rather than via `String.trim` so that it reduces
in the kernel.) -/
def strTrim (s : String) : String :=
  (((s.toList.dropWhile Char.isWhitespace).reverse.dropWhile
      Char.isWhitespace).reverse).asString

/-- `Series.str.replace(',', '')`: remove every comma (thousands
separators) from the string. -/
def stripCommas (s : String) : String :=
  (s.toList.filter (fun c => c != ',')).asString

/-! ## Numeric text parsing

Models `pd.to_numeric(..., errors='coerce')` on the (already stripped)
cell text: an optional sign followed by a decimal numeral, producing an
exact rational; anything else fails (`none`, i.e. NaN).  Exotic float
spellings (scientific notation, `inf`) do not occur in bank-statement
exports and are out of the model. -/

/-- Value of a digit string (most significant first). -/
def digitsVal (l : List Char) : ℕ :=
  l.foldl (fun acc c => acc * 10 + (c.toNat - 48)) 0

/-- Parse an unsigned decimal numeral `digits[.digits]` into a rational. -/
def parseUnsigned (l : List Char) : Option ℚ :=
  let ip := l.takeWhile Char.isDigit
  let rest := l.dropWhile Char.isDigit
  if ip.isEmpty then none
  else
    match rest with
    | [] => some (digitsVal ip : ℚ)
    | c :: frac =>
      if c == '.' && !frac.isEmpty && frac.all Char.isDigit then
        some ((digitsVal ip : ℚ) + (digitsVal frac : ℚ) / (10 ^ frac.length))
      else none

/-- Parse a signed decimal numeral. -/
def parseDecimal (s : String) : Option ℚ :=
  match s.toList with
  | '-' :: rest => (parseUnsigned rest).map (fun q => -q)
  | '+' :: rest => parseUnsigned rest
  | l => parseUnsigned l

/-! ## Float model for the zero-denominator divisions

The pandas savings-rate and growth-rate expressions divide float columns;
with a zero denominator numpy yields `inf` / `-inf` / `NaN` (never an
exception — the scripts suppress the warning).  `PFloat` models a float
as an exact rational or one of those non-finite values. -/

/-- A pandas/numpy float value: finite (exact rational), `inf`, `-inf`,
or `NaN`. -/
inductive PFloat where
  | num : ℚ → PFloat
  | pinf : PFloat
  | ninf : PFloat
  | nan : PFloat
deriving DecidableEq

/-- Float division of two finite values: numpy semantics at a zero
denominator (`x/0 = ±inf` for `x ≠ 0`, `0/0 = NaN`). -/
def pfDiv (a b : ℚ) : PFloat :=
  if b = 0 then if 0 < a then .pinf else if a < 0 then .ninf else .nan
  else .num (a / b)

/-- Multiplication by the positive constant `100` (percentage scaling);
preserves the non-finite tags as numpy does. -/
def pfMul100 : PFloat → PFloat
  | .num q => .num (q * 100)
  | .pinf => .pinf
  | .ninf => .ninf
  | .nan => .nan

/-! ## Rounding

`Series.round(d)` rounds half-to-even (numpy).  Modelled exactly on
rationals; `qFloor` is the floor, computed by Euclidean division so that
it reduces in the kernel. -/

/-- Floor of a rational, as an integer. -/
def qFloor (q : ℚ) : ℤ := Int.ediv q.num (q.den : ℤ)

/-- Round a rational to the nearest integer, ties to even. -/
def rhe (q : ℚ) : ℤ :=
  let f := qFloor q
  if q - f < 1 / 2 then f
  else if 1 / 2 < q - f then f + 1
  else if f % 2 = 0 then f else f + 1

/-- `Series.round(d)`: round to `d` decimal places, half-to-even. -/
def roundTo (d : ℕ) (q : ℚ) : ℚ := (rhe (q * 10 ^ d) : ℚ) / 10 ^ d

/-- `Series.round(1)` lifted to floats: non-finite values pass through. -/
def pfRound1 : PFloat → PFloat
  | .num q => .num (roundTo 1 q)
  | x => x

/-- `Series.fillna(0)`: replaces `NaN` by `0`; `±inf` are NOT `NaN` and
pass through unchanged. -/
def pfFillna0 : PFloat → PFloat
  | .nan => .num 0
  | x => x

/-! ## Raw rows and the row filter

A `RawRow` is one CSV record; every cell is `Option String` (`none` is a
missing/NaN cell).  Field names translate the Chinese column names:
`dateText` = 交易日期, `incomeText` = 记账金额(收入), `expenseText` =
记账金额(支出), `balanceText` = 余额, `summaryText` = 摘要, `detailText` =
交易详情, `locationText` = 交易场所, `counterText` = 对方户名. -/

structure RawRow where
  dateText : Option String
  incomeText : Option String
  expenseText : Option String
  balanceText : Option String
  summaryText : Option String
  detailText : Option String
  locationText : Option String
  counterText : Option String
deriving DecidableEq

/-- Does the date text contain one of the footer/summary markers
(`合计|总计|小计`, the regex alternation of
`df['交易日期'].str.contains('合计|总计|小计', na=False)`)? -/
def hasMarker (s : String) : Bool :=
  strContains s "合计" || strContains s "总计" || strContains s "小计"

/-- The regex `^\d{4}-\d{2}-\d{2}` of
`df['交易日期'].str.match(r'^\d{4}-\d{2}-\d{2}', na=False)`: the string
starts with a `YYYY-MM-DD` shaped prefix. -/
def matchesDatePattern (s : String) : Bool :=
  match s.toList with
  | y1 :: y2 :: y3 :: y4 :: h1 :: m1 :: m2 :: h2 :: d1 :: d2 :: _ =>
    y1.isDigit && y2.isDigit && y3.isDigit && y4.isDigit && h1 == '-' &&
    m1.isDigit && m2.isDigit && h2 == '-' && d1.isDigit && d2.isDigit
  | _ => false

/-- The three-step row filter of `clean_and_preprocess_data`
(lines 66-68 of `bank_analysis_phase2.py`, identically lines 220-222 of
`bank_analysis_improved.py`): drop null dates, drop footer-marker rows
(`na=False` keeps missing cells at this step), keep only rows whose date
matches the `YYYY-MM-DD` prefix pattern (`na=False` drops missing). -/
def rowFilter (rows : List RawRow) : List RawRow :=
  ((rows.filter (fun r => r.dateText.isSome)).filter
      (fun r =>
        match r.dateText with
        | some s => !hasMarker s
        | none => true)).filter
    (fun r =>
      match r.dateText with
      | some s => matchesDatePattern s
      | none => false)

/-! ## Field normalization

`clean_and_preprocess_data`, lines 84-94 (income/expense) and 112-113
(balance) of `bank_analysis_phase2.py` (identical code at lines 238-248
and 266-267 of `bank_analysis_improved.py`). -/

/-- `astype(str)` on one cell: a missing value (`NaN`) prints as the
literal string `"nan"`. -/
def cellStr (cell : Option String) : String :=
  match cell with
  | none => "nan"
  | some t => t

/-- Amount (income / expense) cell normalization:
`astype(str).str.strip()`, then `replace(['', 'nan', 'NaN'], '0')`
(exact-value replacement), then `str.replace(',', '')`, then
`pd.to_numeric(errors='coerce').fillna(0)`. -/
def normAmount (cell : Option String) : ℚ :=
  let s1 := strTrim (cellStr cell)
  let s2 := if s1 = "" ∨ s1 = "nan" ∨ s1 = "NaN" then "0" else s1
  (parseDecimal (stripCommas s2)).getD 0

/-- Whether an amount cell takes the lenient coercion path: its text is
not one of the blank/nan forms replaced by `'0'`, yet fails the numeric
parse and is silently coerced to `0`.  This is the event the
specification's "coercion counter" is said to count. -/
def amountCoerced (cell : Option String) : Bool :=
  let s1 := strTrim (cellStr cell)
  if s1 = "" ∨ s1 = "nan" ∨ s1 = "NaN" then false
  else (parseDecimal (stripCommas s1)).isNone

/-- Balance cell normalization: `astype(str).str.strip()
.str.replace(',', '')` then `pd.to_numeric(errors='coerce')` — no
`fillna`, so an unparseable balance stays `NaN` (`none`). -/
def normBalance (cell : Option String) : Option ℚ :=
  parseDecimal (stripCommas (strTrim (cellStr cell)))

/-- The direction/transaction-type expression (line 97 of
`bank_analysis_phase2.py`, line 251 of `bank_analysis_improved.py`):
`'收入' if row['收入'] > 0 else '支出' if row['支出'] > 0 else '未知'`.
收入 = Income, 支出 = Expense, 未知 = Unknown. -/
def txnTypeOf (inc exp : ℚ) : String :=
  if 0 < inc then "收入" else if 0 < exp then "支出" else "未知"

/-- Year digits of the (pattern-matched) date text `YYYY-MM-DD...`. -/
def yearOf (s : String) : ℤ :=
  match s.toList with
  | a :: b :: c :: d :: _ =>
    ((a.toNat - 48 : ℕ) : ℤ) * 1000 + ((b.toNat - 48 : ℕ) : ℤ) * 100 +
      ((c.toNat - 48 : ℕ) : ℤ) * 10 + ((d.toNat - 48 : ℕ) : ℤ)
  | _ => 0

/-- Month digits of the (pattern-matched) date text `YYYY-MM-DD...`. -/
def monthOf (s : String) : ℤ :=
  match s.toList with
  | _ :: _ :: _ :: _ :: _ :: m1 :: m2 :: _ =>
    ((m1.toNat - 48 : ℕ) : ℤ) * 10 + ((m2.toNat - 48 : ℕ) : ℤ)
  | _ => 0

/-! ## The cleaned transaction -/

/-- A cleaned transaction (one row of `clean_data`).  Field names
translate the derived Chinese columns: `date` = 交易日期 (stripped),
`income` = 收入, `expense` = 支出, `txnType` = 交易类型, `netAmount` =
净金额, `category` = 交易类别, `year` = 年份, `month` = 月份, `quarter` =
季度, `balance` = 账户余额; the three free-text columns 交易详情 /
交易场所 / 对方户名 are carried through unchanged for the categorizer. -/
structure Transaction where
  date : String
  income : ℚ
  expense : ℚ
  txnType : String
  netAmount : ℚ
  category : String
  year : ℤ
  month : ℤ
  quarter : ℤ
  balance : Option ℚ
  detail : Option String
  location : Option String
  counterparty : Option String
deriving DecidableEq

/-- Clean one (already filtered) raw row, following
`clean_and_preprocess_data` steps 1-7: strip the date, normalize the
amounts, derive type and net amount, default the category (`摘要`) to
未分类 ("Uncategorized") and strip it, derive the time keys (pandas
`dt.quarter` is `(month + 2) / 3` by integer division), and normalize
the balance.  (Range validation done by `pd.to_datetime` is outside the
claims; the row filter has already pinned the digit layout.) -/
def cleanRow (r : RawRow) : Transaction :=
  let dateS := strTrim (r.dateText.getD "")
  let inc := normAmount r.incomeText
  let exp := normAmount r.expenseText
  { date := dateS
    income := inc
    expense := exp
    txnType := txnTypeOf inc exp
    netAmount := inc - exp
    category := strTrim (r.summaryText.getD "未分类")
    year := yearOf dateS
    month := monthOf dateS
    quarter := (monthOf dateS + 2) / 3
    balance := normBalance r.balanceText
    detail := r.detailText
    location := r.locationText
    counterparty := r.counterText }

/-- The full cleaning pipeline: filter the raw rows, then clean each
surviving row. -/
def cleanPipeline (rows : List RawRow) : List Transaction :=
  (rowFilter rows).map cleanRow

/-- Formalization of the specification's per-cell coercion counter over a
run (the income and expense cells of the rows that survive the filter);
the engine itself maintains no such counter — see the C7 theorems. -/
def coercionCount (rows : List RawRow) : ℕ :=
  ((rowFilter rows).map
      (fun r =>
        (if amountCoerced r.incomeText then 1 else 0) +
          (if amountCoerced r.expenseText then 1 else 0))).sum

/-! ## Keyword auto-categorization

`ExtendedBankAnalyzer` (`bank_analysis_extended.py`): `category_rules`
(lines 26-37) and `auto_categorize_transactions` (lines 51-64). -/

/-- The three designated free-text columns checked by the categorizer, in
iteration order: `['交易详情', '交易场所', '对方户名']`. -/
inductive TxtCol where
  | detail : TxtCol
  | location : TxtCol
  | counterparty : TxtCol
deriving DecidableEq

/-- Read a text column of a transaction. -/
def colText (t : Transaction) : TxtCol → Option String
  | .detail => t.detail
  | .location => t.location
  | .counterparty => t.counterparty

/-- `text_columns = ['交易详情', '交易场所', '对方户名']`. -/
def textColumns : List TxtCol := [.detail, .location, .counterparty]

/-- `self.category_rules`: the configured categories, in insertion
(iteration) order, each with its ordered keyword list. -/
def categoryRules : List (String × List String) :=
  [("餐饮", ["美团", "饿了么", "肯德基", "麦当劳", "星巴克", "瑞幸", "餐厅", "饭店", "食堂", "外卖"]),
   ("交通", ["滴滴", "出租车", "地铁", "公交", "高铁", "火车", "飞机", "机票", "加油", "停车", "打车"]),
   ("购物", ["淘宝", "天猫", "京东", "拼多多", "苏宁", "当当", "超市", "商场", "购物"]),
   ("医疗", ["医院", "药店", "诊所", "体检", "医疗", "疫苗", "挂号"]),
   ("娱乐", ["电影", "游戏", "娱乐", "健身", "运动", "KTV", "旅游", "酒店"]),
   ("生活", ["水费", "电费", "燃气费", "物业费", "房租", "话费", "网费", "快递"]),
   ("金融", ["理财", "保险", "基金", "股票", "投资", "还款", "贷款"]),
   ("教育", ["培训", "学费", "书费", "教育", "考试"]),
   ("家居", ["装修", "家具", "家电", "日用品"]),
   ("服装", ["服装", "鞋子", "包包", "化妆品"])]

/-- One keyword test on one cell:
`df[col].str.contains(keyword, case=False, na=False)` — a missing cell
never matches. -/
def cellMatch (cell : Option String) (kw : String) : Bool :=
  match cell with
  | none => false
  | some s => strContainsCI s kw

/-- `auto_categorize_transactions` for one transaction: start from 其他
("Other"); for each category in rule order, for each text column, for
each keyword, overwrite the current assignment on a match.  (The pandas
code does this column-wise with boolean masks; per row it is exactly
this triple fold.  All three columns exist in the data, so the
`if col in df.columns` guard is always taken.) -/
def autoCategory (t : Transaction) : String :=
  categoryRules.foldl
    (fun acc p =>
      textColumns.foldl
        (fun acc2 col =>
          p.2.foldl
            (fun acc3 kw => if cellMatch (colText t col) kw then p.1 else acc3)
            acc2)
        acc)
    "其他"

/-- The flattened rule sequence in exact iteration order (category,
then column, then keyword). -/
def ruleSeq : List (String × TxtCol × String) :=
  categoryRules.flatMap
    (fun p => textColumns.flatMap (fun col => p.2.map (fun kw => (p.1, col, kw))))

/-- The rules that match transaction `t`, in iteration order. -/
def ruleHits (t : Transaction) : List (String × TxtCol × String) :=
  ruleSeq.filter (fun r => cellMatch (colText t r.2.1) r.2.2)

/-- Modelled from the spec (§4.3 tie-break policy): the category of the
LAST matching rule in iteration order, defaulting to 其他 ("Other") when
no rule matches.  Compared against the code's `autoCategory` in C3. -/
def lastMatchCat (t : Transaction) : String :=
  (((ruleHits t).getLast?).map Prod.fst).getD "其他"

/-! ## Grouped aggregates

`analyze_monthly_trends`, `analyze_yearly_trends`, `analyze_categories`
and `analyze_overall_summary` of `BankDataAnalyzer`
(`bank_analysis_phase2.py`; `ImprovedBankAnalyzer` repeats the same
code).  pandas `groupby` sorts the group keys ascending; the time
groupbys below sort their keys with an insertion sort. -/

/-- Insert into a `le`-sorted list. -/
def insSorted (le : α → α → Bool) (a : α) : List α → List α
  | [] => [a]
  | b :: t => if le a b then a :: b :: t else b :: insSorted le a t

/-- Sort a list ascending by `le` (insertion sort). -/
def sortAsc (le : α → α → Bool) (l : List α) : List α :=
  l.foldr (insSorted le) []

/-- Chronological order on `(year, month)` period keys. -/
def ymLe (a b : ℤ × ℤ) : Bool :=
  decide (a.1 < b.1 ∨ (a.1 = b.1 ∧ a.2 ≤ b.2))

/-- One row of the monthly summary table: the 年月 group key and the
收入 / 支出 / 净金额 sums (rounded to 2 places) plus the 储蓄率(%)
savings-rate column. -/
structure MBucket where
  ym : ℤ × ℤ
  inc : ℚ
  outgo : ℚ
  net : ℚ
  sav : PFloat
deriving DecidableEq

/-- One row of the yearly summary table (same columns, keyed by 年份). -/
structure YBucket where
  year : ℤ
  inc : ℚ
  outgo : ℚ
  net : ℚ
  sav : PFloat
deriving DecidableEq

/-- The savings-rate column:
`(净金额 / 收入 * 100).round(1)` then `.fillna(0)` — float division, so a
zero income sum with nonzero net passes `±inf` through both `round` and
`fillna` (only the `0/0` `NaN` becomes the `0` sentinel). -/
def savRate (net inc : ℚ) : PFloat :=
  pfFillna0 (pfRound1 (pfMul100 (pfDiv net inc)))

/-- `analyze_monthly_trends` aggregation (lines 176-183): group by 年月,
sum 收入 / 支出 / 净金额, `round(2)`, then add the savings-rate column. -/
def monthlySummary (ts : List Transaction) : List MBucket :=
  (sortAsc ymLe ((ts.map (fun t => (t.year, t.month))).dedup)).map
    (fun k =>
      let g := ts.filter (fun t => (t.year, t.month) = k)
      let inc := roundTo 2 ((g.map (fun t => t.income)).sum)
      let outgo := roundTo 2 ((g.map (fun t => t.expense)).sum)
      let net := roundTo 2 ((g.map (fun t => t.netAmount)).sum)
      { ym := k, inc := inc, outgo := outgo, net := net, sav := savRate net inc })

/-- `analyze_yearly_trends` aggregation (lines 211-218): group by 年份,
sum, `round(2)`, add the savings-rate column. -/
def yearlySummary (ts : List Transaction) : List YBucket :=
  (sortAsc (fun a b => decide (a ≤ b)) ((ts.map (fun t => t.year)).dedup)).map
    (fun k =>
      let g := ts.filter (fun t => t.year = k)
      let inc := roundTo 2 ((g.map (fun t => t.income)).sum)
      let outgo := roundTo 2 ((g.map (fun t => t.expense)).sum)
      let net := roundTo 2 ((g.map (fun t => t.netAmount)).sum)
      { year := k, inc := inc, outgo := outgo, net := net, sav := savRate net inc })

/-- The year-over-year growth expression of the loop at lines 226-233:
`(curr - prev) / prev * 100`, computed unconditionally (float
division — no guard on `prev == 0`). -/
def growthRate (prev cur : ℚ) : PFloat :=
  pfMul100 (pfDiv (cur - prev) prev)

/-- `analyze_yearly_trends` growth analysis: for each consecutive pair
of rows of the yearly summary, the income growth and the expense growth
(in that order), labelled by the two years. -/
def yearlyGrowth (ts : List Transaction) : List (ℤ × ℤ × PFloat × PFloat) :=
  let ys := yearlySummary ts
  (ys.zip ys.tail).map
    (fun p => (p.1.year, p.2.year, growthRate p.1.inc p.2.inc,
                growthRate p.1.outgo p.2.outgo))

/-- `analyze_categories` income side (lines 246-251): restrict to rows
with `收入 > 0`, group by 交易类别, sum (rounded to 2 places).  The
count / mean / share columns and the descending display sort performed
afterwards permute and decorate these buckets without changing the sums,
and are omitted. -/
def incomeCats (ts : List Transaction) : List (String × ℚ) :=
  (((ts.filter (fun t => 0 < t.income)).map (fun t => t.category)).dedup).map
    (fun k =>
      (k, roundTo 2 ((((ts.filter (fun t => 0 < t.income)).filter
            (fun t => t.category = k)).map (fun t => t.income)).sum)))

/-- `analyze_categories` expense side (lines 257-262): rows with
`支出 > 0`, grouped by 交易类别, summed. -/
def expenseCats (ts : List Transaction) : List (String × ℚ) :=
  (((ts.filter (fun t => 0 < t.expense)).map (fun t => t.category)).dedup).map
    (fun k =>
      (k, roundTo 2 ((((ts.filter (fun t => 0 < t.expense)).filter
            (fun t => t.category = k)).map (fun t => t.expense)).sum)))

/-- `analyze_overall_summary` total income (line 141): `df['收入'].sum()`. -/
def totalIncome (ts : List Transaction) : ℚ := (ts.map (fun t => t.income)).sum

/-- `analyze_overall_summary` total expense (line 142): `df['支出'].sum()`. -/
def totalExpense (ts : List Transaction) : ℚ := (ts.map (fun t => t.expense)).sum

/-- A rational is a whole number of hundredths (a 2-decimal fixed-point
amount, the bank-statement format). -/
def isCent (q : ℚ) : Prop := (q * 100).den = 1

/-- `isCent` is decidable (it is an equality of naturals). -/
instance (q : ℚ) : Decidable (isCent q) :=
  inferInstanceAs (Decidable ((q * 100).den = 1))

/-! ## General helper lemmas -/

attribute [local semireducible] Rat.add Rat.mul Rat.sub Rat.inv Rat.ofScientific

/-! ## Fixed-point (cent) amounts and rounding -/

/-! ## Characterization of the auto-categorizer -/

/-! ## Claim theorems -/

/-- A well-formed dated row (witness data for C5). -/
def c5rowGood : RawRow :=
  ⟨some "2024-03-05", some "1,000.00", some "", some "5,000.00",
    some "工资", none, none, some "公司"⟩

/-- A 合计 (grand-total) footer row (witness data for C5). -/
def c5rowMarker : RawRow :=
  ⟨some "合计", some "99", none, none, none, none, none, none⟩

/-- A row with a date in the wrong format (witness data for C5). -/
def c5rowBad : RawRow :=
  ⟨some "2024/03/05", none, none, none, none, none, none, none⟩

/-- A row with a missing date (witness data for C5). -/
def c5rowNull : RawRow :=
  ⟨none, some "5", none, none, none, none, none, none⟩

/-- A row with zero amounts on both sides (witness data for C6). -/
def c6row : RawRow :=
  ⟨some "2024-03-05", some "0", some "", none, some "其他", none, none, none⟩

/-- A reversal-style row with both amounts positive (witness data for
C10). -/
def c10row : RawRow :=
  ⟨some "2024-03-06", some "5.00", some "3.00", none, some "冲正", none, none,
    none⟩

/-- A row whose expense cell is corrupt text, silently coerced to `0`
(counterexample data for C7). -/
def c7rowA : RawRow :=
  ⟨some "2024-01-05", some "100", some "abc", some "", some "x", none, none,
    none⟩

/-- The same row with a genuine `0` expense cell (counterexample data for
C7). -/
def c7rowB : RawRow :=
  ⟨some "2024-01-05", some "100", some "0", some "", some "x", none, none,
    none⟩

/-- A transaction whose 交易详情 matches a 餐饮 keyword (美团, category
declared first) and whose 交易场所 matches a 交通 keyword (地铁, category
declared later) — scenario data for C3. -/
def c3row : RawRow :=
  ⟨some "2024-05-01", none, some "35.50", none, some "消费",
    some "美团订单", some "地铁站", none⟩

/-- A one-transaction January 2024 with zero income and a 50 expense
(failing input for C1). -/
def c1row : RawRow :=
  ⟨some "2024-01-15", none, some "50", none, some "消费", none, none, none⟩

/-- Two one-transaction years: 2023 with income 0 / expense 50, 2024
with income 100 / expense 0 (failing input for C2). -/
def c2rowA : RawRow :=
  ⟨some "2023-03-01", none, some "50", none, none, none, none, none⟩

/-- Second row of the C2 failing input. -/
def c2rowB : RawRow :=
  ⟨some "2024-03-01", some "100", none, none, none, none, none, none⟩

/-- Concrete mixed-category ledger (witness data for C4). -/
def c4ts : List Transaction :=
  [⟨"2024-01-01", 0, 25.5, "支出", -25.5, "餐饮", 2024, 1, 1, none, none,
      none, none⟩,
    ⟨"2024-01-02", 1000, 0, "收入", 1000, "工资", 2024, 1, 1, none, none,
      none, none⟩,
    ⟨"2024-02-03", 0, 10, "支出", -10, "餐饮", 2024, 2, 1, none, none,
      none, none⟩]

/-- Folding over a flattened list is the nested fold. -/
theorem foldl_flatMap (g : γ → β → γ) (f : α → List β) (l : List α) (init : γ) :
    (l.flatMap f).foldl g init = l.foldl (fun acc a => (f a).foldl g acc) init := by
  induction l generalizing init with
  | nil => rfl
  | cons a t ih => simp [List.flatMap_cons, List.foldl_append, ih]

/-- An overwrite-style fold returns the image of the last element
satisfying the predicate, or the initial value when none does. -/
theorem foldl_overwrite (p : α → Bool) (g : α → β) (l : List α) (init : β) :
    l.foldl (fun acc a => if p a then g a else acc) init =
      (((l.filter p).getLast?).map g).getD init := by
  induction l generalizing init with
  | nil => rfl
  | cons a t ih =>
    cases hp : p a with
    | false => simp [List.foldl_cons, List.filter_cons, hp, ih]
    | true =>
      rw [List.foldl_cons]
      simp only [hp, if_true]
      rw [ih]
      cases hf : t.filter p with
      | nil => simp [List.filter_cons, hp, hf]
      | cons b u =>
        obtain ⟨x, hx⟩ : ∃ x, (b :: u).getLast? = some x := by
          clear hf
          induction u generalizing b with
          | nil => exact ⟨b, List.getLast?_singleton b⟩
          | cons c w ihu => rw [List.getLast?_cons_cons]; exact ihu c
        simp [List.filter_cons, hp, hf, List.getLast?_cons_cons, hx]

/-- The last element of a list is a member of it. -/
theorem mem_of_getLast_opt {l : List α} {a : α} (h : l.getLast? = some a) :
    a ∈ l := by
  induction l with
  | nil => simp at h
  | cons b t ih =>
    cases t with
    | nil =>
      rw [List.getLast?_singleton] at h
      cases h
      exact List.mem_cons_self _ _
    | cons c u =>
      rw [List.getLast?_cons_cons] at h
      exact List.mem_cons_of_mem _ (ih h)

/-- Splitting the sum of mapped values along a Boolean predicate. -/
theorem sum_map_filter_split (p : α → Bool) (v : α → ℚ) (l : List α) :
    ((l.filter p).map v).sum + ((l.filter (fun a => !p a)).map v).sum =
      (l.map v).sum := by
  induction l with
  | nil => simp
  | cons a t ih =>
    cases hp : p a with
    | false =>
      simp [List.filter_cons, hp]
      linarith [ih]
    | true =>
      simp [List.filter_cons, hp]
      linarith [ih]

/-- Summing group sums over a complete, duplicate-free key list recovers
the total sum. -/
theorem partition_sum_aux {K : Type} [DecidableEq K] (key : α → K) (v : α → ℚ) :
    ∀ (ks : List K) (l : List α), ks.Nodup → (∀ a ∈ l, key a ∈ ks) →
      (ks.map (fun k => ((l.filter (fun a => key a = k)).map v).sum)).sum =
        (l.map v).sum := by
  intro ks
  induction ks with
  | nil =>
    intro l _ hcov
    cases l with
    | nil => simp
    | cons a t => exact absurd (hcov a (List.mem_cons_self a t)) (List.not_mem_nil _)
  | cons k ks ih =>
    intro l hnd hcov
    have hk : k ∉ ks := (List.nodup_cons.mp hnd).1
    have hnd2 : ks.Nodup := (List.nodup_cons.mp hnd).2
    have hmap : ∀ k2 ∈ ks,
        ((l.filter (fun a => key a = k2)).map v).sum =
          (((l.filter (fun a => !(decide (key a = k)))).filter
              (fun a => key a = k2)).map v).sum := by
      intro k2 hk2
      have hne : k2 ≠ k := by
        rintro rfl
        exact hk hk2
      rw [List.filter_filter]
      have : ∀ a ∈ l,
          (decide (key a = k2) && !(decide (key a = k))) = decide (key a = k2) := by
        intro a _
        by_cases h : key a = k2
        · have h2 : ¬ key a = k := by
            rw [h]
            exact hne
          simp [h, h2, hne]
        · simp [h]
      rw [List.filter_congr this]
    have hcov2 : ∀ a ∈ l.filter (fun a => !(decide (key a = k))), key a ∈ ks := by
      intro a ha
      have hmem := List.mem_filter.mp ha
      have hne : ¬ key a = k := by
        intro h
        rw [Bool.not_eq_true', decide_eq_false_iff_not] at hmem
        exact hmem.2 h
      cases List.mem_cons.mp (hcov a hmem.1) with
      | inl h => exact absurd h hne
      | inr h => exact h
    rw [List.map_cons, List.sum_cons,
      List.map_congr_left hmap,
      ih (l.filter (fun a => !(decide (key a = k)))) hnd2 hcov2]
    exact sum_map_filter_split (fun a => decide (key a = k)) v l

/-- Partition property: summing per-key group sums over the deduplicated
key list of `l` gives the sum over `l`. -/
theorem partition_sum {K : Type} [DecidableEq K] (key : α → K) (v : α → ℚ)
    (l : List α) :
    (((l.map key).dedup).map
        (fun k => ((l.filter (fun a => key a = k)).map v).sum)).sum =
      (l.map v).sum :=
  partition_sum_aux key v _ l (List.nodup_dedup _)
    (fun a ha => List.mem_dedup.mpr (List.mem_map_of_mem key ha))

/-- Cent amounts are closed under addition. -/
theorem isCent_add {a b : ℚ} (ha : isCent a) (hb : isCent b) :
    isCent (a + b) := by
  unfold isCent at *
  have ha2 : ((a * 100).num : ℚ) = a * 100 := (Rat.den_eq_one_iff _).mp ha
  have hb2 : ((b * 100).num : ℚ) = b * 100 := (Rat.den_eq_one_iff _).mp hb
  have : (a + b) * 100 = (((a * 100).num + (b * 100).num : ℤ) : ℚ) := by
    push_cast [ha2, hb2]
    ring
  rw [this]
  exact Rat.den_intCast _

/-- Zero is a cent amount. -/
theorem isCent_zero : isCent 0 := by
  unfold isCent
  norm_num

/-- A sum of cent amounts is a cent amount. -/
theorem isCent_sum {l : List ℚ} (h : ∀ q ∈ l, isCent q) : isCent l.sum := by
  induction l with
  | nil =>
    rw [List.sum_nil]
    exact isCent_zero
  | cons a t ih =>
    rw [List.sum_cons]
    exact isCent_add (h a (List.mem_cons_self a t))
      (ih fun q hq => h q (List.mem_cons_of_mem a hq))

/-- Rounding to two decimal places is the identity on cent amounts. -/
theorem roundTo_two_cent {q : ℚ} (h : isCent q) : roundTo 2 q = q := by
  have h2 : ((q * 100).num : ℚ) = q * 100 := (Rat.den_eq_one_iff _).mp h
  have h102 : (10 : ℚ) ^ 2 = 100 := by norm_num
  have hfloor : qFloor (q * 100) = (q * 100).num := by
    unfold qFloor
    rw [h, Nat.cast_one]
    exact Int.ediv_one _
  have hrhe : rhe (q * 100) = (q * 100).num := by
    simp only [rhe]
    rw [hfloor, h2]
    norm_num
  unfold roundTo
  rw [h102, hrhe, h2, mul_div_assoc]
  norm_num

/-- The nested category/column/keyword fold of
`auto_categorize_transactions` equals the single fold over the flattened
rule sequence. -/
theorem autoCategory_eq_flat (t : Transaction) :
    autoCategory t =
      ruleSeq.foldl
        (fun acc r => if cellMatch (colText t r.2.1) r.2.2 then r.1 else acc)
        "其他" := by
  unfold autoCategory ruleSeq
  simp only [foldl_flatMap, List.foldl_map]

/-- The auto-category is the category of the last matching rule in
iteration order, or 其他 ("Other") when nothing matches. -/
theorem autoCategory_lastRule (t : Transaction) :
    autoCategory t = lastMatchCat t := by
  rw [autoCategory_eq_flat, lastMatchCat, ruleHits]
  exact foldl_overwrite _ _ _ _

/-- Every rule in the flattened sequence carries a configured category
name. -/
theorem ruleSeq_fst_mem {r : String × TxtCol × String} (h : r ∈ ruleSeq) :
    r.1 ∈ categoryRules.map Prod.fst := by
  unfold ruleSeq at h
  rw [List.mem_flatMap] at h
  obtain ⟨p, hp, h2⟩ := h
  rw [List.mem_flatMap] at h2
  obtain ⟨col, _, h3⟩ := h2
  rw [List.mem_map] at h3
  obtain ⟨kw, _, hkw⟩ := h3
  rw [← hkw]
  exact List.mem_map.mpr ⟨p, hp, rfl⟩

/-- C5: every raw row that survives `rowFilter` has a non-null date cell
whose text matches the `YYYY-MM-DD` pattern at the start of the string
and contains no subtotal/total/grand-total footer marker. -/
theorem C5_rowFilter_sound (rows : List RawRow) (r : RawRow)
    (h : r ∈ rowFilter rows) :
    ∃ s, r.dateText = some s ∧ matchesDatePattern s = true ∧
      hasMarker s = false := by
  unfold rowFilter at h
  rw [List.mem_filter] at h
  obtain ⟨h2, hp3⟩ := h
  rw [List.mem_filter] at h2
  obtain ⟨h1, hp2⟩ := h2
  rw [List.mem_filter] at h1
  obtain ⟨_, hp1⟩ := h1
  obtain ⟨s, hs⟩ := Option.isSome_iff_exists.mp hp1
  rw [hs] at hp2 hp3
  simp only [Bool.not_eq_true'] at hp2
  exact ⟨s, hs, hp3, hp2⟩

/-- C5 witness: on a concrete batch, the good row survives the filter and
the guarantee holds of it (and indeed it is the only survivor). -/
theorem C5_witness :
    c5rowGood ∈ rowFilter [c5rowGood, c5rowMarker, c5rowBad, c5rowNull] ∧
      rowFilter [c5rowGood, c5rowMarker, c5rowBad, c5rowNull] = [c5rowGood] ∧
      (∃ s, c5rowGood.dateText = some s ∧ matchesDatePattern s = true ∧
        hasMarker s = false) :=
  ⟨by decide, by decide,
    C5_rowFilter_sound [c5rowGood, c5rowMarker, c5rowBad, c5rowNull]
      c5rowGood (by decide)⟩

/-- C6: for every cleaned row whose income and expense are non-negative
(the format of amount cells), the derived direction is one of 收入
(Income) / 支出 (Expense) / 未知 (Unknown); it is 未知 exactly when both
amounts are zero; and it is a function of the income and expense fields
alone (the net-amount column plays no part). -/
theorem C6_direction (r : RawRow)
    (h1 : 0 ≤ (cleanRow r).income) (h2 : 0 ≤ (cleanRow r).expense) :
    ((cleanRow r).txnType = "收入" ∨ (cleanRow r).txnType = "支出" ∨
        (cleanRow r).txnType = "未知") ∧
      ((cleanRow r).txnType = "未知" ↔
        (cleanRow r).income = 0 ∧ (cleanRow r).expense = 0) ∧
      (cleanRow r).txnType = txnTypeOf (cleanRow r).income (cleanRow r).expense := by
  have hty : (cleanRow r).txnType =
      txnTypeOf (cleanRow r).income (cleanRow r).expense := rfl
  refine ⟨?_, ?_, hty⟩
  · rw [hty]
    unfold txnTypeOf
    by_cases hi : 0 < (cleanRow r).income
    · rw [if_pos hi]
      exact Or.inl rfl
    · rw [if_neg hi]
      by_cases he : 0 < (cleanRow r).expense
      · rw [if_pos he]
        exact Or.inr (Or.inl rfl)
      · rw [if_neg he]
        exact Or.inr (Or.inr rfl)
  · rw [hty]
    unfold txnTypeOf
    by_cases hi : 0 < (cleanRow r).income
    · rw [if_pos hi]
      constructor
      · intro hcontra
        exact absurd hcontra (by decide)
      · intro h3
        rw [h3.1] at hi
        exact absurd hi (lt_irrefl 0)
    · rw [if_neg hi]
      by_cases he : 0 < (cleanRow r).expense
      · rw [if_pos he]
        constructor
        · intro hcontra
          exact absurd hcontra (by decide)
        · intro h3
          rw [h3.2] at he
          exact absurd he (lt_irrefl 0)
      · rw [if_neg he]
        constructor
        · intro _
          exact ⟨le_antisymm (not_lt.mp hi) h1, le_antisymm (not_lt.mp he) h2⟩
        · intro _
          rfl

/-- C6 witness at a concrete cleaned row (both amounts zero: the
direction comes out 未知/Unknown). -/
theorem C6_witness :
    0 ≤ (cleanRow c6row).income ∧ 0 ≤ (cleanRow c6row).expense ∧
      (((cleanRow c6row).txnType = "收入" ∨ (cleanRow c6row).txnType = "支出" ∨
          (cleanRow c6row).txnType = "未知") ∧
        ((cleanRow c6row).txnType = "未知" ↔
          (cleanRow c6row).income = 0 ∧ (cleanRow c6row).expense = 0) ∧
        (cleanRow c6row).txnType =
          txnTypeOf (cleanRow c6row).income (cleanRow c6row).expense) :=
  ⟨by decide, by decide, C6_direction c6row (by decide) (by decide)⟩

/-- C10: when both the cleaned income and the cleaned expense are
strictly positive (e.g. a reversal row), the direction is 收入 (Income):
the income test comes first in the conditional expression. -/
theorem C10_reversal_is_income (r : RawRow)
    (h1 : 0 < (cleanRow r).income) (h2 : 0 < (cleanRow r).expense) :
    (cleanRow r).txnType = "收入" := by
  have hty : (cleanRow r).txnType =
      txnTypeOf (cleanRow r).income (cleanRow r).expense := rfl
  rw [hty]
  unfold txnTypeOf
  rw [if_pos h1]

/-- C10 witness: a concrete row with income 5.00 and expense 3.00 is
classified 收入 (Income). -/
theorem C10_witness :
    0 < (cleanRow c10row).income ∧ 0 < (cleanRow c10row).expense ∧
      (cleanRow c10row).txnType = "收入" :=
  ⟨by decide, by decide, C10_reversal_is_income c10row (by decide) (by decide)⟩

/-- C7 (amended): a blank, whitespace-only, or literal `nan`/`NaN`
amount cell normalizes to zero; commas are stripped before the numeric
parse; text that still fails to parse is coerced to zero (the
normalization is total — no abort); and text that parses yields exactly
the parsed value.  (The original claim's per-coercion diagnostics
counter does not exist in the code — see `C7_counterexample`.) -/
theorem C7_amount_coercion (s : String) :
    normAmount none = 0 ∧
      ((strTrim s = "" ∨ strTrim s = "nan" ∨ strTrim s = "NaN") →
        normAmount (some s) = 0) ∧
      (parseDecimal (stripCommas (strTrim s)) = none →
        normAmount (some s) = 0) ∧
      (∀ q, parseDecimal (stripCommas (strTrim s)) = some q →
        normAmount (some s) = q) := by
  refine ⟨by decide, ?_, ?_, ?_⟩
  · intro h
    simp only [normAmount, cellStr]
    rw [if_pos h]
    decide
  · intro h
    simp only [normAmount, cellStr]
    by_cases hcase : strTrim s = "" ∨ strTrim s = "nan" ∨ strTrim s = "NaN"
    · rw [if_pos hcase]
      decide
    · rw [if_neg hcase, h]
      rfl
  · intro q hq
    simp only [normAmount, cellStr]
    have hcase : ¬(strTrim s = "" ∨ strTrim s = "nan" ∨ strTrim s = "NaN") := by
      intro hc
      rcases hc with h1 | h1 | h1
      · rw [h1] at hq
        exact Option.noConfusion
          ((by decide : parseDecimal (stripCommas "") = none).symm.trans hq)
      · rw [h1] at hq
        exact Option.noConfusion
          ((by decide : parseDecimal (stripCommas "nan") = none).symm.trans hq)
      · rw [h1] at hq
        exact Option.noConfusion
          ((by decide : parseDecimal (stripCommas "NaN") = none).symm.trans hq)
    rw [if_neg hcase, hq]
    rfl

/-- C7 witness: a missing cell, a whitespace cell, a comma-formatted
numeral, and corrupt text, all normalized as the (amended) claim says. -/
theorem C7_witness :
    normAmount (some "  ") = 0 ∧
      normAmount (some "1,234.56") = 123456 / 100 ∧
      normAmount (some "xyz") = 0 :=
  ⟨(C7_amount_coercion "  ").2.1 (by decide),
    (C7_amount_coercion "1,234.56").2.2.2 (123456 / 100) (by decide),
    (C7_amount_coercion "xyz").2.2.1 (by decide)⟩

/-- C7 counterexample (against the original claim's diagnostics
counter): a run with one coercion event and a run with none produce
identical cleaned datasets — and hence identical downstream reports and
diagnostics, every one of which is a function of the cleaned data and
the raw row count — so no per-coercion diagnostics counter exists in the
program's behaviour. -/
theorem C7_counterexample :
    cleanPipeline [c7rowA] = cleanPipeline [c7rowB] ∧
      coercionCount [c7rowA] = 1 ∧ coercionCount [c7rowB] = 0 := by
  decide

/-- C8: a balance cell (after strip and comma removal) that fails the
numeric parse normalizes to null (`none`), never to zero; a parseable
cell normalizes to exactly the parsed value; a missing cell is null. -/
theorem C8_balance_nulls (s : String) :
    (parseDecimal (stripCommas (strTrim s)) = none →
      normBalance (some s) = none) ∧
      (∀ q, parseDecimal (stripCommas (strTrim s)) = some q →
        normBalance (some s) = some q) ∧
      normBalance none = none := by
  refine ⟨?_, ?_, by decide⟩
  · intro h
    simp only [normBalance, cellStr]
    exact h
  · intro q h
    simp only [normBalance, cellStr]
    exact h

/-- C8 witness: a comma-formatted balance parses exactly; corrupt text
gives null (not zero). -/
theorem C8_witness :
    normBalance (some "5,000.00") = some 5000 ∧
      normBalance (some "N/A") = none :=
  ⟨(C8_balance_nulls "5,000.00").2.1 5000 (by decide),
    (C8_balance_nulls "N/A").1 (by decide)⟩

/-- C3: the auto-categorizer scans categories in declared order, then
the three text columns, then keywords, overwriting on every
case-insensitive substring match — so it always returns the category of
the LAST matching rule in that iteration order (其他/"Other" when none
match); in particular, the concrete transaction matching 餐饮 in column
1 and the later-declared 交通 in column 2 ends up 交通. -/
theorem C3_last_rule_wins :
    (∀ t : Transaction, autoCategory t = lastMatchCat t) ∧
      autoCategory (cleanRow c3row) = "交通" :=
  ⟨autoCategory_lastRule, by decide⟩

/-- C9: after auto-classification, the assigned category is always the
default 其他 ("Other") or one of the configured category names — never
anything else (and never missing: `autoCategory` is total). -/
theorem C9_autoCategory_closed (t : Transaction) :
    autoCategory t ∈ "其他" :: categoryRules.map Prod.fst := by
  rw [autoCategory_lastRule]
  unfold lastMatchCat
  cases hx : (ruleHits t).getLast? with
  | none => exact List.mem_cons_self _ _
  | some r =>
    have hr : r ∈ ruleHits t := mem_of_getLast_opt hx
    have hr2 : r ∈ ruleSeq := (List.mem_filter.mp hr).1
    simpa using List.mem_cons_of_mem _ (ruleSeq_fst_mem hr2)

/-- C1 (code bug evidence): on a monthly bucket with summed income `0`
and summed net `-50`, the savings-rate column is `-inf` — the float
division `净金额 / 收入 * 100` passes `-inf` through `round(1)` and
through `fillna(0)` (which only replaces `NaN`) — not the documented
sentinel and not `0`. -/
theorem C1_savings_neg_infinity :
    monthlySummary (cleanPipeline [c1row]) =
      [{ ym := (2024, 1), inc := 0, outgo := 50, net := -50,
          sav := PFloat.ninf }] := by
  decide

/-- C2 (code bug evidence): the year-over-year loop computes
`(curr - prev) / prev * 100` unconditionally; with the 2023 income sum
equal to `0` it produces `+inf` for the income growth (while the expense
growth, whose previous sum is nonzero, is the ordinary `-100`).  Nothing
flags the zero-previous case as undefined. -/
theorem C2_growth_unguarded :
    yearlyGrowth (cleanPipeline [c2rowA, c2rowB]) =
      [(2023, 2024, PFloat.pinf, PFloat.num (-100))] := by
  decide

/-- Core of C4: for a non-negative cent-valued amount column `v`, the
rounded per-category sums over the `v`-positive rows add up to the plain
column total over all rows. -/
theorem catAgg_total (v : Transaction → ℚ) (ts : List Transaction)
    (h : ∀ t ∈ ts, 0 ≤ v t ∧ isCent (v t)) :
    ((((ts.filter (fun t => 0 < v t)).map (fun t => t.category)).dedup).map
        (fun k => roundTo 2 ((((ts.filter (fun t => 0 < v t)).filter
            (fun t => t.category = k)).map v).sum))).sum =
      (ts.map v).sum := by
  set rows := ts.filter (fun t => 0 < v t) with hrows
  have hmapeq : ((rows.map (fun t => t.category)).dedup).map
      (fun k => roundTo 2 (((rows.filter (fun t => t.category = k)).map v).sum)) =
      ((rows.map (fun t => t.category)).dedup).map
        (fun k => ((rows.filter (fun t => t.category = k)).map v).sum) := by
    apply List.map_congr_left
    intro k _
    apply roundTo_two_cent
    apply isCent_sum
    intro q hq
    rw [List.mem_map] at hq
    obtain ⟨t, ht, rfl⟩ := hq
    have ht2 : t ∈ rows := (List.mem_filter.mp ht).1
    have ht3 : t ∈ ts := by
      rw [hrows] at ht2
      exact (List.mem_filter.mp ht2).1
    exact (h t ht3).2
  rw [hmapeq, partition_sum (fun t => t.category) v rows]
  have hsplit := sum_map_filter_split (fun t => decide (0 < v t)) v ts
  have hzero : ((ts.filter (fun t => !(decide (0 < v t)))).map v).sum = 0 := by
    apply List.sum_eq_zero
    intro x hx
    rw [List.mem_map] at hx
    obtain ⟨t, ht, rfl⟩ := hx
    have hmem := List.mem_filter.mp ht
    have hnp : ¬ 0 < v t := by
      have h4 := hmem.2
      rw [Bool.not_eq_true', decide_eq_false_iff_not] at h4
      exact h4
    exact le_antisymm (not_lt.mp hnp) (h t hmem.1).1
  rw [hrows, ← hsplit, hzero, add_zero]

/-- C4: the per-category expense sums of `analyze_categories` add up to
the overall expense total of `analyze_overall_summary` (the category
buckets partition the expense-positive rows, and rows with zero expense
contribute nothing), and likewise for income — for every transaction
list whose amounts are non-negative 2-decimal values (the bank-statement
amount format). -/
theorem C4_category_partition (ts : List Transaction)
    (h : ∀ t ∈ ts, 0 ≤ t.income ∧ isCent t.income ∧
      0 ≤ t.expense ∧ isCent t.expense) :
    ((incomeCats ts).map Prod.snd).sum = totalIncome ts ∧
      ((expenseCats ts).map Prod.snd).sum = totalExpense ts := by
  constructor
  · have hc := catAgg_total (fun t => t.income) ts
      (fun t ht => ⟨(h t ht).1, (h t ht).2.1⟩)
    unfold incomeCats totalIncome
    rw [List.map_map]
    exact hc
  · have hc := catAgg_total (fun t => t.expense) ts
      (fun t ht => ⟨(h t ht).2.2.1, (h t ht).2.2.2⟩)
    unfold expenseCats totalExpense
    rw [List.map_map]
    exact hc

/-- C4 witness at a concrete three-transaction ledger with two expense
categories. -/
theorem C4_witness :
    (∀ t ∈ c4ts, 0 ≤ t.income ∧ isCent t.income ∧
        0 ≤ t.expense ∧ isCent t.expense) ∧
      (((incomeCats c4ts).map Prod.snd).sum = totalIncome c4ts ∧
        ((expenseCats c4ts).map Prod.snd).sum = totalExpense c4ts) :=
  ⟨by decide, C4_category_partition c4ts (by decide)⟩
